import Mathlib

/-!
Verification of the particle/score core of the game (TreeCanvas and the
geometry utilities).  The source file contains two near-duplicate component
variants, called variant A (the first copy) and variant B (the second copy);
definitions below carry an `A`/`B` suffix where the variants differ.

Numeric conventions: scores are natural numbers (the external score starts at
0 and is only ever incremented by the integral gift deltas); gift and
shockwave coordinates and speeds, which the source manipulates with exact
decimal literals, are rationals; the trigonometric geometry (triangle
sampling, star polygon) is over the reals.
-/

namespace Game

/-! ### Score-Event Dispatcher (score-event useEffect, variants A and B)

The dispatcher observes a score change from `prevScore` to `currentScore`.
If the score did not increase it only stores the new score.  Otherwise it
computes, for each effect family, `floor(s/T) - floor(p/T)` and spawns that
many effects when the count is positive and the canvas is present
(`spawnGroundParticles`, `spawnSkyStars` and `launchFirework` each push
exactly `count` elements onto their population).  Variant A additionally caps
ground lights at score 1600 and auto-ornaments at 2000; the big firework show
spawns a random count (modelled by the `bigRand` parameter) rather than the
crossing count.  `DispatchCounts` records how many effects of each family one
dispatcher run spawns, together with the stored previous score afterwards. -/

structure DispatchCounts where
  ground : ℕ
  sky : ℕ
  fireworks : ℕ
  bigShow : ℕ
  ornaments : ℕ
  newPrev : ℕ
deriving DecidableEq, Repr

/-- Variant A dispatcher (TreeCanvas.tsx lines 73-117).  `hasCanvas` models
`canvasRef.current` being non-null, `hasParticles` models
`particles.current.length > 0`, and `bigRand` models the random draw
`Math.floor(Math.random() * 6)` of the massive-show branch. -/
def dispatchA (prevScore currentScore : ℕ) (hasCanvas hasParticles : Bool)
    (bigRand : ℕ) : DispatchCounts :=
  if currentScore ≤ prevScore then
    ⟨0, 0, 0, 0, 0, currentScore⟩
  else
    let ground := if currentScore < 1600 then
        (let d := currentScore / 16 - prevScore / 16
         if 0 < d ∧ hasCanvas = true then d else 0)
      else 0
    let sky :=
      (let d := currentScore / 100 - prevScore / 100
       if 0 < d ∧ hasCanvas = true then d else 0)
    let fw :=
      (let d := currentScore / 66 - prevScore / 66
       if 0 < d ∧ hasCanvas = true then d else 0)
    let big :=
      (let d := currentScore / 260 - prevScore / 260
       if 0 < d ∧ hasCanvas = true then bigRand % 6 + 5 else 0)
    let orn := if currentScore < 2000 then
        (let d := currentScore / 20 - prevScore / 20
         if 0 < d ∧ hasParticles = true then d else 0)
      else 0
    ⟨ground, sky, fw, big, orn, currentScore⟩

/-- Variant B dispatcher (TreeCanvas.tsx lines 1199-1239): no score caps,
ornaments every 10 points, massive show every 150 points with a random count
`Math.floor(Math.random() * 19) + 10` modelled by `bigRand`. -/
def dispatchB (prevScore currentScore : ℕ) (hasCanvas hasParticles : Bool)
    (bigRand : ℕ) : DispatchCounts :=
  if currentScore ≤ prevScore then
    ⟨0, 0, 0, 0, 0, currentScore⟩
  else
    let ground :=
      (let d := currentScore / 16 - prevScore / 16
       if 0 < d ∧ hasCanvas = true then d else 0)
    let sky :=
      (let d := currentScore / 100 - prevScore / 100
       if 0 < d ∧ hasCanvas = true then d else 0)
    let fw :=
      (let d := currentScore / 66 - prevScore / 66
       if 0 < d ∧ hasCanvas = true then d else 0)
    let big :=
      (let d := currentScore / 150 - prevScore / 150
       if 0 < d ∧ hasCanvas = true then bigRand % 19 + 10 else 0)
    let orn :=
      (let d := currentScore / 10 - prevScore / 10
       if 0 < d ∧ hasParticles = true then d else 0)
    ⟨ground, sky, fw, big, orn, currentScore⟩

/-! ### Gifts (spawnGift / collectGift / handleMouseDown, variants A and B)

`Gift` keeps the simulation-relevant fields of the source's `Gift` record;
the purely visual fields (`id`, `color`, `ribbonColor`) are omitted.  Random
draws of the source are explicit parameters. -/

inductive GiftType
  | small
  | medium
  | large
  | blue
  | black
  | yellow
  | pink
  | purple
deriving DecidableEq, Repr, Inhabited

structure GiftCfg where
  w : ℚ
  speed : ℚ
  score : ℚ
deriving DecidableEq, Repr

/-- The `GIFT_CONFIG` table of variant A's `spawnGift` (width, base speed,
base score per type).  Variant B's `spawnGift` hardcodes the `small`,
`medium` and `large` rows of the same table. -/
def giftConfig : GiftType → GiftCfg
  | .small => ⟨30, 1, 2⟩
  | .medium => ⟨40, 3/2, 6⟩
  | .large => ⟨50, 2, 8⟩
  | .blue => ⟨60, 5/2, 10⟩
  | .black => ⟨70, 3, 12⟩
  | .yellow => ⟨80, 7/2, 14⟩
  | .pink => ⟨90, 4, 16⟩
  | .purple => ⟨100, 9/2, 18⟩

structure Gift where
  x : ℚ
  y : ℚ
  width : ℚ
  height : ℚ
  gtype : GiftType
  speedMultiplier : ℚ
  baseScore : ℚ
  rotation : ℚ
  rotationSpeed : ℚ
deriving DecidableEq, Repr, Inhabited

/-- Score-gated type pool of variant A's `spawnGift`. -/
def availableTypes (score : ℚ) : List GiftType :=
  [.small, .medium, .large]
    ++ (if 100 ≤ score then [.blue] else [])
    ++ (if 200 ≤ score then [.black] else [])
    ++ (if 300 ≤ score then [.yellow] else [])
    ++ (if 400 ≤ score then [.pink] else [])
    ++ (if 500 ≤ score then [.purple] else [])

/-- Difficulty scaling of variant A's `spawnGift`: above 600 points the speed
is floor-clamped to 2, above 2000 points all speeds double. -/
def finalSpeed (score : ℚ) (t : GiftType) : ℚ :=
  let s1 := (giftConfig t).speed
  let s2 := if 600 < score then max s1 2 else s1
  if 2000 < score then s2 * 2 else s2

/-- Variant A `spawnGift` (lines 385-449).  Over the 10-gift cap the attempt
is dropped.  `typeIdx` models `Math.floor(Math.random() * len)` (reduced mod
the pool size), `rx` the uniform draw for the horizontal position, `rot` and
`rotSpeed` the rotation draws. -/
def spawnGiftA (score width : ℚ) (typeIdx : ℕ) (rx rot rotSpeed : ℚ)
    (gs : List Gift) : List Gift :=
  if 10 ≤ gs.length then gs
  else
    let ts := availableTypes score
    let t := ts.getD (typeIdx % ts.length) .small
    let cfg := giftConfig t
    gs ++ [{ x := rx * (width - cfg.w) + cfg.w / 2
             y := -120
             width := cfg.w
             height := cfg.w
             gtype := t
             speedMultiplier := finalSpeed score t
             baseScore := cfg.score
             rotation := rot
             rotationSpeed := rotSpeed }]

/-- Variant B `spawnGift` (lines 1503-1544): 50% small / 30% medium / 20%
large by the draw `rand`, no population cap. -/
def spawnGiftB (width rand rx rot rotSpeed : ℚ) (gs : List Gift) : List Gift :=
  let t : GiftType := if 4/5 < rand then .large else if 1/2 < rand then .medium else .small
  let cfg := giftConfig t
  gs ++ [{ x := rx * (width - cfg.w) + cfg.w / 2
           y := -60
           width := cfg.w
           height := cfg.w
           gtype := t
           speedMultiplier := cfg.speed
           baseScore := cfg.score
           rotation := rot
           rotationSpeed := rotSpeed }]

/-- Replacement-spawn counts of variant A's `collectGift` switch. -/
def replacementCount : GiftType → ℕ
  | .small => 1
  | .medium => 2
  | .large => 3
  | _ => 2

/-- One bundle of random draws for a replacement `spawnGift` call. -/
structure SpawnDraw where
  typeIdx : ℕ
  rx : ℚ
  rot : ℚ
  rotSpeed : ℚ
deriving Repr

/-- Variant A `collectGift` (lines 512-540): reports
`g.baseScore * g.speedMultiplier` to `onScoreUpdate` and issues
`replacementCount` cap-checked `spawnGift` calls (the collected gift is still
in the population at this point; its removal is done by the caller).  The
`createExplosion` side effect touches only the tree-particle population and
is outside this model.  Returns the reported delta and the gift population
after the replacement spawns. -/
def collectGiftA (score width : ℚ) (draws : ℕ → SpawnDraw) (g : Gift)
    (gs : List Gift) : ℚ × List Gift :=
  let reported := g.baseScore * g.speedMultiplier
  let gs' := (List.range (replacementCount g.gtype)).foldl
      (fun acc k =>
        let d := draws k
        spawnGiftA score width d.typeIdx d.rx d.rot d.rotSpeed acc) gs
  (reported, gs')

/-- Tolerance-expanded axis-aligned bounding-box test of `handleMouseDown`
(tolerance 8 in variant A, 10 in variant B). -/
def giftHit (clickX clickY tol : ℚ) (g : Gift) : Prop :=
  g.x - g.width / 2 - tol ≤ clickX ∧ clickX ≤ g.x + g.width / 2 + tol ∧
  g.y - g.height / 2 - tol ≤ clickY ∧ clickY ≤ g.y + g.height / 2 + tol

instance giftHit.instDec (clickX clickY tol : ℚ) (g : Gift) :
    Decidable (giftHit clickX clickY tol g) := by
  unfold giftHit
  exact inferInstance

/-- The `for (let i = gifts.length - 1; i >= 0; i--)` scan of
`handleMouseDown`: indices `n-1, n-2, ..., 0` are tested in order and the
scan returns at the first hit. -/
def findHitAux (clickX clickY tol : ℚ) (gs : List Gift) : ℕ → Option ℕ
  | 0 => none
  | n + 1 =>
      if giftHit clickX clickY tol (gs.getD n default) then some n
      else findHitAux clickX clickY tol gs n

def findHitIndex (clickX clickY tol : ℚ) (gs : List Gift) : Option ℕ :=
  findHitAux clickX clickY tol gs gs.length

/-- Variant A `handleMouseDown` gift phase (lines 1098-1114): on a hit,
`collectGift` runs (reporting the delta and spawning replacements while the
hit gift is still present) and then the hit gift is spliced out; the handler
returns immediately, so at most one gift is collected per click.  The
no-hit shockwave branch touches only the shockwave/tree populations. -/
def handleClickA (score width : ℚ) (draws : ℕ → SpawnDraw)
    (clickX clickY : ℚ) (gs : List Gift) : Option ℚ × List Gift :=
  match findHitIndex clickX clickY 8 gs with
  | some i =>
      match gs[i]? with
      | some g =>
          let r := collectGiftA score width draws g gs
          (some r.1, r.2.eraseIdx i)
      | none => (none, gs)
  | none => (none, gs)

/-- Variant B `handleMouseDown` gift phase (lines 2124-2138): tolerance 10,
reports `g.baseScore * g.speedMultiplier`, removes the gift, no replacement
spawns. -/
def handleClickB (clickX clickY : ℚ) (gs : List Gift) : Option ℚ × List Gift :=
  match findHitIndex clickX clickY 10 gs with
  | some i =>
      match gs[i]? with
      | some g => (some (g.baseScore * g.speedMultiplier), gs.eraseIdx i)
      | none => (none, gs)
  | none => (none, gs)

/-- Gift update of variant A's `update` step 2 (lines 563-569): each gift
falls by `GIFT_BASE_SPEED * speedMultiplier` (base speed 2), rotates, and is
removed once `y > height + 150`.  The source's backwards splice loop removes
exactly the over-threshold gifts, i.e. it is this map-then-filter. -/
def fallStepA (height : ℚ) (gs : List Gift) : List Gift :=
  (gs.map fun g =>
      { g with y := g.y + 2 * g.speedMultiplier
               rotation := g.rotation + g.rotationSpeed }).filter
    fun g => g.y ≤ height + 150

/-- Variant A shockwave-collection of one gift (update step 7, lines
678-688): `collectGift` on the gift at index `j` followed by its splice.
A frame that collects several gifts is a sequence of these steps. -/
def shockCollectA (score width : ℚ) (draws : ℕ → SpawnDraw) (j : ℕ)
    (gs : List Gift) : List Gift :=
  (collectGiftA score width draws (gs.getD j default) gs).2.eraseIdx j

/-- Reachable gift populations of variant A: empty at scene build, then
closed under timer spawns, click handling, shockwave collection and the
per-frame fall/cull step. -/
inductive ReachA : List Gift → Prop
  | init : ReachA []
  | timerSpawn (score width : ℚ) (typeIdx : ℕ) (rx rot rotSpeed : ℚ)
      (gs : List Gift) : ReachA gs →
      ReachA (spawnGiftA score width typeIdx rx rot rotSpeed gs)
  | click (score width : ℚ) (draws : ℕ → SpawnDraw) (clickX clickY : ℚ)
      (gs : List Gift) : ReachA gs →
      ReachA (handleClickA score width draws clickX clickY gs).2
  | shock (score width : ℚ) (draws : ℕ → SpawnDraw) (j : ℕ)
      (gs : List Gift) : ReachA gs →
      ReachA (shockCollectA score width draws j gs)
  | fall (height : ℚ) (gs : List Gift) : ReachA gs →
      ReachA (fallStepA height gs)

/-! ### Shockwaves (createShockwave and update step 7) -/

structure Shockwave where
  x : ℚ
  y : ℚ
  size : ℚ
  life : ℚ
  decay : ℚ
deriving DecidableEq, Repr

/-- `createShockwave` (identical in both variants): radius 0, life 1,
decay 0.02. -/
def createShockwave (x y : ℚ) : Shockwave :=
  { x := x, y := y, size := 0, life := 1, decay := 1/50 }

/-- Per-shockwave part of update step 7: `sw.size += 5; sw.life -= sw.decay`
(the `life !== undefined && decay !== undefined` guards always hold, every
created shockwave carries both fields). -/
def stepShockwave (sw : Shockwave) : Shockwave :=
  { sw with size := sw.size + 5, life := sw.life - sw.decay }

/-- Update step 7 over the whole population: each shockwave is stepped and
spliced out when its life drops to `≤ 0`; the source's backwards splice loop
is this map-then-filter. -/
def stepShockwaves (l : List Shockwave) : List Shockwave :=
  (l.map stepShockwave).filter fun sw => 0 < sw.life

/-! ### Geometry utilities (the geometry module)

These mirror the pure functions `getRandomPointInTriangle` and
`isPointInStar`.  The source computes with IEEE doubles; the embedding uses
exact reals, so `Math.sqrt`, `Math.cos`, `Math.sin` become their real
counterparts and the definitions are noncomputable. -/

structure Point where
  x : ℝ
  y : ℝ

/-- `getRandomPointInTriangle` with the two `Math.random()` draws as
explicit parameters. -/
noncomputable def getRandomPointInTriangle (p1 p2 p3 : Point) (r1 r2 : ℝ) :
    Point :=
  let sqrtR1 := Real.sqrt r1
  { x := (1 - sqrtR1) * p1.x + (sqrtR1 * (1 - r2)) * p2.x + (sqrtR1 * r2) * p3.x
    y := (1 - sqrtR1) * p1.y + (sqrtR1 * (1 - r2)) * p2.y + (sqrtR1 * r2) * p3.y }

/-- Vertex `i` of the star polygon built by `isPointInStar`: the source
starts at `angle = -π/2`, adds `angleStep = π/spikes` per vertex, and
alternates outer/inner radius. -/
noncomputable def starVertex (cx cy : ℝ) (spikes : ℕ) (outerRadius innerRadius : ℝ)
    (i : ℕ) : Point :=
  let angle : ℝ := -(Real.pi / 2) + i * (Real.pi / spikes)
  let r : ℝ := if i % 2 = 0 then outerRadius else innerRadius
  { x := cx + Real.cos angle * r, y := cy + Real.sin angle * r }

/-- The `starPoints` array of `isPointInStar` (`spikes * 2` vertices). -/
noncomputable def starPoints (cx cy : ℝ) (spikes : ℕ) (outerRadius innerRadius : ℝ) :
    List Point :=
  (List.range (spikes * 2)).map (starVertex cx cy spikes outerRadius innerRadius)

open scoped Classical

/-- The ray-casting loop of `isPointInStar`:
`for (let i = 0, j = len - 1; i < len; j = i++)` visits the index pairs
`(0, len-1), (1, 0), ..., (len-1, len-2)` and toggles `inside` whenever the
edge straddles the horizontal through `py` and its crossing lies strictly to
the right of `px`.  Real-number comparisons are classical, hence the `Bool`
result is noncomputable. -/
noncomputable def rayCastInside (px py : ℝ) (pts : List Point) : Bool :=
  (List.range pts.length).foldl
    (fun inside i =>
      let pI := pts.getD i ⟨0, 0⟩
      let pJ := pts.getD (if i = 0 then pts.length - 1 else i - 1) ⟨0, 0⟩
      if ((pI.y > py) ≠ (pJ.y > py)) ∧
          px < (pJ.x - pI.x) * (py - pI.y) / (pJ.y - pI.y) + pI.x
      then !inside else inside)
    false

/-- `isPointInStar` (geometry module, lines 34-61). -/
noncomputable def isPointInStar (px py cx cy : ℝ) (spikes : ℕ)
    (outerRadius innerRadius : ℝ) : Bool :=
  rayCastInside px py (starPoints cx cy spikes outerRadius innerRadius)

/-! ### Mouse repulsion (update step 9) and pointer scaling

The per-particle mouse interaction of `update` computes
`distance = sqrt(dx² + dy²)` and, whenever `distance < MOUSE_RADIUS`,
divides `dx` and `dy` by `distance`.  `handleMouseMove` scales pointer
coordinates by `canvas.width / rect.width` with no check on `rect.width`. -/

def MOUSE_RADIUS : ℝ := 100

/-- The divisor of the repulsion computation: the pointer-to-particle
distance. -/
noncomputable def repulsionDistance (mx my px py : ℝ) : ℝ :=
  Real.sqrt ((mx - px) * (mx - px) + (my - py) * (my - py))

/-- The only guard the source places around the `dx / distance`,
`dy / distance` divisions. -/
noncomputable def repulsionApplies (mx my px py : ℝ) : Prop :=
  repulsionDistance mx my px py < MOUSE_RADIUS

/-- The repulsion kick `(directionX, directionY)` subtracted from the
particle velocity when the guard holds (variant A lines 762-779, variant B
lines 1814-1828; variant A additionally requires the particle's `reactive`
flag, which does not change the divisions performed). -/
noncomputable def repulsionForce (mx my px py density : ℝ) : ℝ × ℝ :=
  let dx := mx - px
  let dy := my - py
  let distance := repulsionDistance mx my px py
  if distance < MOUSE_RADIUS then
    let force := (MOUSE_RADIUS - distance) / MOUSE_RADIUS
    (dx / distance * force * density, dy / distance * force * density)
  else (0, 0)

/-- `handleMouseMove` coordinate scaling (variant A lines 1052-1066):
`(clientX - rect.left) * (canvas.width / rect.width)`, unguarded. -/
noncomputable def mouseMoveScaleX (canvasW rectW clientX rectLeft : ℝ) : ℝ :=
  (clientX - rectLeft) * (canvasW / rectW)

/-! ## Theorems -/

/-! ### C2: non-increasing score updates -/

/-- C2: whenever the new score is at most the stored previous score, both
dispatcher variants spawn zero effects of every family and only store the
new score as the previous score. -/
theorem c2_nonincreasing_zero_spawns (p s : ℕ) (hc hp : Bool) (brA brB : ℕ)
    (h : s ≤ p) :
    dispatchA p s hc hp brA = ⟨0, 0, 0, 0, 0, s⟩ ∧
    dispatchB p s hc hp brB = ⟨0, 0, 0, 0, 0, s⟩ := by
  unfold dispatchA dispatchB
  rw [if_pos h, if_pos h]
  exact ⟨rfl, rfl⟩

/-- Witness for C2 at prevScore 5, score 3. -/
theorem c2_witness :
    dispatchA 5 3 true true 0 = ⟨0, 0, 0, 0, 0, 3⟩ ∧
    dispatchB 5 3 true true 0 = ⟨0, 0, 0, 0, 0, 3⟩ :=
  c2_nonincreasing_zero_spawns 5 3 true true 0 0 (by decide)

/-! ### C1: threshold-crossing counts -/

/-- C1 counterexample: the claim asserts the ground-light family (T = 16)
always spawns `floor(s/16) - floor(p/16)` effects for `p ≤ s`, but variant A
caps ground lights at score 1600: the update from 1584 to 1600 spawns 0
ground lights while the claimed formula gives 1. -/
theorem c1_counterexample :
    (dispatchA 1584 1600 true true 0).ground = 0 ∧ 1600 / 16 - 1584 / 16 = 1 := by
  decide

/-- C1 as amended: for every `p ≤ s`, both variants spawn exactly
`floor(s/100) - floor(p/100)` sky stars and `floor(s/66) - floor(p/66)`
small fireworks; ground lights get exactly `floor(s/16) - floor(p/16)` in
variant B always, and in variant A only below its score cap of 1600 (at or
above the cap variant A spawns zero ground lights). -/
theorem c1_threshold_counts (p s : ℕ) (hp : Bool) (brA brB : ℕ) (h : p ≤ s) :
    (dispatchA p s true hp brA).ground =
      (if s < 1600 then s / 16 - p / 16 else 0) ∧
    (dispatchA p s true hp brA).sky = s / 100 - p / 100 ∧
    (dispatchA p s true hp brA).fireworks = s / 66 - p / 66 ∧
    (dispatchB p s true hp brB).ground = s / 16 - p / 16 ∧
    (dispatchB p s true hp brB).sky = s / 100 - p / 100 ∧
    (dispatchB p s true hp brB).fireworks = s / 66 - p / 66 := by
  rcases eq_or_lt_of_le h with rfl | hlt
  · unfold dispatchA dispatchB
    rw [if_pos le_rfl, if_pos le_rfl]
    refine ⟨?_, ?_, ?_, ?_, ?_, ?_⟩ <;> simp
  · unfold dispatchA dispatchB
    rw [if_neg (Nat.not_le.mpr hlt), if_neg (Nat.not_le.mpr hlt)]
    have h16 : p / 16 ≤ s / 16 := Nat.div_le_div_right h
    have h100 : p / 100 ≤ s / 100 := Nat.div_le_div_right h
    have h66 : p / 66 ≤ s / 66 := Nat.div_le_div_right h
    refine ⟨?_, ?_, ?_, ?_, ?_, ?_⟩ <;> simp only [] <;> split_ifs <;>
      simp_all

/-- Witness for C1 (amended): the multi-threshold jump 90 → 310 spawns
exactly `floor(310/100) - floor(90/100) = 3` sky stars. -/
theorem c1_witness :
    (dispatchA 90 310 true true 0).sky = 310 / 100 - 90 / 100 ∧
    (dispatchA 90 310 true true 0).sky = 3 := by
  refine ⟨(c1_threshold_counts 90 310 true 0 0 (by decide)).2.1, ?_⟩
  decide

/-! ### C6: shockwave monotonicity and removal -/

/-- C6: one simulation step never shrinks a shockwave's radius and never
grows its life (for the nonnegative decay every created shockwave has, as
the third conjunct records); and after the step, no shockwave whose life has
reached a value `≤ 0` remains in the population. -/
theorem c6_shockwave_step (l : List Shockwave)
    (hdec : ∀ sw ∈ l, 0 ≤ sw.decay) :
    (∀ sw ∈ l, sw.size ≤ (stepShockwave sw).size ∧
        (stepShockwave sw).life ≤ sw.life) ∧
    (∀ sw ∈ stepShockwaves l, 0 < sw.life) ∧
    (∀ x y : ℚ, 0 ≤ (createShockwave x y).decay) := by
  refine ⟨fun sw hsw => ⟨?_, ?_⟩, fun sw hsw => ?_, fun x y => ?_⟩
  · simp only [stepShockwave]
    linarith
  · simp only [stepShockwave]
    linarith [hdec sw hsw]
  · unfold stepShockwaves at hsw
    rw [List.mem_filter] at hsw
    simpa using hsw.2
  · norm_num [createShockwave]

/-- Witness for C6 on a freshly created shockwave. -/
theorem c6_witness :
    (∀ sw ∈ [createShockwave 3 4], (0:ℚ) ≤ sw.decay) ∧
    (∀ sw ∈ stepShockwaves [createShockwave 3 4], (0:ℚ) < sw.life) := by
  have hd : ∀ sw ∈ [createShockwave 3 4], (0:ℚ) ≤ sw.decay := by
    intro sw hsw
    rw [List.mem_singleton] at hsw
    subst hsw
    norm_num [createShockwave]
  exact ⟨hd, (c6_shockwave_step [createShockwave 3 4] hd).2.1⟩

/-! ### C5: the 10-gift cap (helper lemmas, then the claim) -/

lemma spawnGiftA_cap_preserved (score width : ℚ) (typeIdx : ℕ)
    (rx rot rotSpeed : ℚ) (gs : List Gift) (h : gs.length ≤ 10) :
    (spawnGiftA score width typeIdx rx rot rotSpeed gs).length ≤ 10 := by
  unfold spawnGiftA
  split
  · exact h
  · rename_i hlt
    rw [List.length_append]
    simp only [List.length_singleton]
    omega

lemma collect_fold_cap_preserved (score width : ℚ) (draws : ℕ → SpawnDraw)
    (l : List ℕ) (acc : List Gift) (h : acc.length ≤ 10) :
    (l.foldl (fun a k =>
        let d := draws k
        spawnGiftA score width d.typeIdx d.rx d.rot d.rotSpeed a) acc).length
      ≤ 10 := by
  induction l generalizing acc with
  | nil => exact h
  | cons a t ih =>
      rw [List.foldl_cons]
      exact ih _ (spawnGiftA_cap_preserved _ _ _ _ _ _ _ h)

lemma collectGiftA_cap_preserved (score width : ℚ) (draws : ℕ → SpawnDraw)
    (g : Gift) (gs : List Gift) (h : gs.length ≤ 10) :
    (collectGiftA score width draws g gs).2.length ≤ 10 :=
  collect_fold_cap_preserved score width draws _ gs h

/-- C5 counterexample: variant B's `spawnGift` has no population cap: a
spawn attempt made while 10 gifts are alive pushes an 11th gift instead of
being dropped. -/
theorem c5_counterexample :
    (spawnGiftB 482 0 0 0 0 (List.replicate 10 default)).length = 11 := by
  simp [spawnGiftB]

/-- C5 as amended: in variant A the 10-gift cap is an invariant of every
reachable gift population (timer spawns, click collection with its
replacement spawns, shockwave collection, and the fall/cull step), and a
variant A spawn attempt made while at least 10 gifts are alive leaves the
population unchanged.  Variant B's `spawnGift` enforces no cap
(`c5_counterexample`). -/
theorem c5_cap_invariant :
    (∀ gs, ReachA gs → gs.length ≤ 10) ∧
    (∀ (score width : ℚ) (typeIdx : ℕ) (rx rot rotSpeed : ℚ) (gs : List Gift),
      10 ≤ gs.length → spawnGiftA score width typeIdx rx rot rotSpeed gs = gs) := by
  constructor
  · intro gs h
    induction h with
    | init => simp
    | timerSpawn score width typeIdx rx rot rotSpeed gs _ ih =>
        exact spawnGiftA_cap_preserved _ _ _ _ _ _ _ ih
    | click score width draws clickX clickY gs _ ih =>
        unfold handleClickA
        rcases hfi : findHitIndex clickX clickY 8 gs with _ | i
        · simpa using ih
        · rcases hg : gs[i]? with _ | g
          · simpa [hfi, hg] using ih
          · simp only [hfi, hg]
            exact le_trans (List.length_eraseIdx_le _ _)
              (collectGiftA_cap_preserved _ _ _ _ _ ih)
    | shock score width draws j gs _ ih =>
        unfold shockCollectA
        exact le_trans (List.length_eraseIdx_le _ _)
          (collectGiftA_cap_preserved _ _ _ _ _ ih)
    | fall height gs _ ih =>
        unfold fallStepA
        exact le_trans (List.length_filter_le _ _) (by simpa using ih)
  · intro score width typeIdx rx rot rotSpeed gs h
    unfold spawnGiftA
    rw [if_pos h]

/-- Witness for C5: the empty population is reachable and within the cap,
and a variant A spawn attempt on a full 10-gift population is dropped. -/
theorem c5_witness :
    ([] : List Gift).length ≤ 10 ∧
    spawnGiftA 0 482 0 0 0 0 (List.replicate 10 default) =
      List.replicate 10 default :=
  ⟨c5_cap_invariant.1 [] ReachA.init,
   c5_cap_invariant.2 0 482 0 0 0 0 (List.replicate 10 default) (by simp)⟩

/-! ### C4: hit-test order (helper lemmas, then the claim) -/

lemma findHitAux_some_spec (clickX clickY tol : ℚ) (gs : List Gift) (n k : ℕ)
    (h : findHitAux clickX clickY tol gs n = some k) :
    k < n ∧ giftHit clickX clickY tol (gs.getD k default) ∧
      ∀ m, k < m → m < n → ¬ giftHit clickX clickY tol (gs.getD m default) := by
  induction n with
  | zero => simp [findHitAux] at h
  | succ n ih =>
      rw [findHitAux] at h
      by_cases hh : giftHit clickX clickY tol (gs.getD n default)
      · rw [if_pos hh] at h
        obtain rfl : n = k := by simpa using h
        exact ⟨Nat.lt_succ_self n, hh, fun m hm1 hm2 => by omega⟩
      · rw [if_neg hh] at h
        obtain ⟨h1, h2, h3⟩ := ih h
        refine ⟨Nat.lt_succ_of_lt h1, h2, fun m hm1 hm2 => ?_⟩
        rcases Nat.lt_succ_iff_lt_or_eq.1 hm2 with hm | rfl
        · exact h3 m hm1 hm
        · exact hh

lemma findHitAux_isSome (clickX clickY tol : ℚ) (gs : List Gift) (n j : ℕ)
    (hj : j < n) (hhit : giftHit clickX clickY tol (gs.getD j default)) :
    ∃ k, findHitAux clickX clickY tol gs n = some k := by
  induction n with
  | zero => omega
  | succ n ih =>
      rw [findHitAux]
      by_cases hh : giftHit clickX clickY tol (gs.getD n default)
      · exact ⟨n, if_pos hh⟩
      · rw [if_neg hh]
        rcases Nat.lt_succ_iff_lt_or_eq.1 hj with hj' | rfl
        · exact ih hj'
        · exact absurd hhit hh

lemma spawnGiftA_appends (score width : ℚ) (typeIdx : ℕ) (rx rot rotSpeed : ℚ)
    (gs : List Gift) :
    ∃ rest, spawnGiftA score width typeIdx rx rot rotSpeed gs = gs ++ rest := by
  unfold spawnGiftA
  split
  · exact ⟨[], by simp⟩
  · exact ⟨_, rfl⟩

lemma collect_fold_appends (score width : ℚ) (draws : ℕ → SpawnDraw)
    (l : List ℕ) (acc : List Gift) :
    ∃ rest, l.foldl (fun a k =>
        let d := draws k
        spawnGiftA score width d.typeIdx d.rx d.rot d.rotSpeed a) acc
      = acc ++ rest := by
  induction l generalizing acc with
  | nil => exact ⟨[], by simp⟩
  | cons a t ih =>
      rw [List.foldl_cons]
      obtain ⟨r1, hr1⟩ := spawnGiftA_appends score width (draws a).typeIdx
        (draws a).rx (draws a).rot (draws a).rotSpeed acc
      obtain ⟨r2, hr2⟩ := ih (acc ++ r1)
      refine ⟨r1 ++ r2, ?_⟩
      simp only [hr1]
      rw [hr2, List.append_assoc]

lemma collectGiftA_snd_appends (score width : ℚ) (draws : ℕ → SpawnDraw)
    (g : Gift) (gs : List Gift) :
    ∃ rest, (collectGiftA score width draws g gs).2 = gs ++ rest :=
  collect_fold_appends score width draws _ gs

/-- C4: when the click point lies inside the tolerance-expanded bounding
boxes of two (or more) gifts, `handleMouseDown`'s reverse-insertion scan
collects the most recently spawned hit gift — the returned index `k` is a
hit no later gift is, and it is at least `j` for any hit index `j`.  At most
one gift is collected: variant A removes exactly the gift at `k` (its
replacement spawns only append), and variant B's population afterwards is
exactly the old one without index `k`. -/
theorem c4_hit_order (clickX clickY tol : ℚ) (gs : List Gift) (i j : ℕ)
    (hij : i < j) (hj : j < gs.length)
    (hhi : giftHit clickX clickY tol (gs.getD i default))
    (hhj : giftHit clickX clickY tol (gs.getD j default)) :
    ∃ k, findHitIndex clickX clickY tol gs = some k ∧ j ≤ k ∧ k < gs.length ∧
      giftHit clickX clickY tol (gs.getD k default) ∧
      (∀ m, k < m → m < gs.length →
        ¬ giftHit clickX clickY tol (gs.getD m default)) ∧
      (tol = 8 → ∀ (score width : ℚ) (draws : ℕ → SpawnDraw), ∃ rest,
        (handleClickA score width draws clickX clickY gs).2
          = gs.eraseIdx k ++ rest) ∧
      (tol = 10 → (handleClickB clickX clickY gs).2 = gs.eraseIdx k) := by
  obtain ⟨k, hk⟩ :=
    findHitAux_isSome clickX clickY tol gs gs.length j hj hhj
  obtain ⟨hk1, hk2, hk3⟩ := findHitAux_some_spec clickX clickY tol gs _ k hk
  have hjk : j ≤ k := by
    by_contra hcon
    exact hk3 j (by omega) hj hhj
  have hgsk : gs[k]? = some (gs.getD k default) :=
    List.getElem?_eq_some_iff.mpr ⟨hk1, (List.getD_eq_getElem gs default hk1).symm⟩
  refine ⟨k, hk, hjk, hk1, hk2, hk3, ?_, ?_⟩
  · rintro rfl score width draws
    obtain ⟨rest, hrest⟩ := collectGiftA_snd_appends score width draws
      (gs.getD k default) gs
    refine ⟨rest, ?_⟩
    unfold handleClickA
    rw [show findHitIndex clickX clickY 8 gs = some k from hk]
    simp only [hgsk, hrest]
    exact List.eraseIdx_append_of_lt_length hk1 rest
  · rintro rfl
    unfold handleClickB
    rw [show findHitIndex clickX clickY 10 gs = some k from hk]
    simp only [hgsk]

/-- Witness for C4: two overlapping gifts, both hit by the click at
(100, 100); the scan returns the later one. -/
theorem c4_witness :
    giftHit 100 100 8
      (⟨100, 100, 30, 30, .small, 1, 2, 0, 0⟩ : Gift) ∧
    giftHit 100 100 8
      (⟨105, 100, 30, 30, .medium, 3/2, 6, 0, 0⟩ : Gift) ∧
    ∃ k, findHitIndex 100 100 8
        [⟨100, 100, 30, 30, .small, 1, 2, 0, 0⟩,
         ⟨105, 100, 30, 30, .medium, 3/2, 6, 0, 0⟩] = some k ∧ 1 ≤ k := by
  have h1 : giftHit 100 100 8 (⟨100, 100, 30, 30, .small, 1, 2, 0, 0⟩ : Gift) := by
    unfold giftHit
    norm_num
  have h2 : giftHit 100 100 8 (⟨105, 100, 30, 30, .medium, 3/2, 6, 0, 0⟩ : Gift) := by
    unfold giftHit
    norm_num
  refine ⟨h1, h2, ?_⟩
  obtain ⟨k, hk, hk1, _⟩ := c4_hit_order 100 100 8
    [⟨100, 100, 30, 30, .small, 1, 2, 0, 0⟩,
     ⟨105, 100, 30, 30, .medium, 3/2, 6, 0, 0⟩] 0 1 (by omega) (by simp)
    (by simpa using h1) (by simpa using h2)
  exact ⟨k, hk, hk1⟩

/-! ### C3: reported score delta on collection -/

/-- C3: every collection path reports exactly
`baseScore * speedMultiplier` of the collected gift: `collectGift` itself
(used by both the variant A click path and the variant A shockwave-collection
loop), the variant A click handler for the gift it hits, and the variant B
click handler; moreover every gift variant A spawns carries
`baseScore = giftConfig(type).score` and the difficulty-scaled
`speedMultiplier = finalSpeed score type`, so the reported delta is the
claimed `baseScore(type) × speedMultiplier`. -/
theorem c3_collect_score :
    (∀ (score width : ℚ) (draws : ℕ → SpawnDraw) (g : Gift) (gs : List Gift),
      (collectGiftA score width draws g gs).1
        = g.baseScore * g.speedMultiplier) ∧
    (∀ (score width : ℚ) (draws : ℕ → SpawnDraw) (clickX clickY : ℚ)
        (gs : List Gift) (i : ℕ) (g : Gift),
      findHitIndex clickX clickY 8 gs = some i → gs[i]? = some g →
      (handleClickA score width draws clickX clickY gs).1
        = some (g.baseScore * g.speedMultiplier)) ∧
    (∀ (clickX clickY : ℚ) (gs : List Gift) (i : ℕ) (g : Gift),
      findHitIndex clickX clickY 10 gs = some i → gs[i]? = some g →
      (handleClickB clickX clickY gs).1
        = some (g.baseScore * g.speedMultiplier)) ∧
    (∀ (score width : ℚ) (typeIdx : ℕ) (rx rot rotSpeed : ℚ)
        (gs : List Gift) (g : Gift),
      g ∈ spawnGiftA score width typeIdx rx rot rotSpeed gs → g ∉ gs →
      g.baseScore = (giftConfig g.gtype).score ∧
        g.speedMultiplier = finalSpeed score g.gtype) := by
  refine ⟨fun score width draws g gs => rfl, ?_, ?_, ?_⟩
  · intro score width draws clickX clickY gs i g hfi hg
    unfold handleClickA
    rw [hfi]
    simp only [hg]
    rfl
  · intro clickX clickY gs i g hfi hg
    unfold handleClickB
    rw [hfi]
    simp only [hg]
  · intro score width typeIdx rx rot rotSpeed gs g hmem hnot
    unfold spawnGiftA at hmem
    split at hmem
    · exact absurd hmem hnot
    · rw [List.mem_append] at hmem
      rcases hmem with hmem | hmem
      · exact absurd hmem hnot
      · rw [List.mem_singleton] at hmem
        subst hmem
        exact ⟨rfl, rfl⟩

/-- Witness for C3: clicking the exact centre of a concrete small gift
reports `2 * 1`. -/
theorem c3_witness :
    (handleClickA 0 482 (fun _ => ⟨0, 0, 0, 0⟩) 100 100
        [⟨100, 100, 30, 30, .small, 1, 2, 0, 0⟩]).1 = some ((2:ℚ) * 1) := by
  have hfi : findHitIndex 100 100 8
      [(⟨100, 100, 30, 30, .small, 1, 2, 0, 0⟩ : Gift)] = some 0 := by
    show findHitAux 100 100 8 _ 1 = some 0
    rw [show (1:ℕ) = 0 + 1 from rfl, findHitAux, if_pos]
    unfold giftHit
    norm_num
  exact c3_collect_score.2.1 0 482 (fun _ => ⟨0, 0, 0, 0⟩) 100 100
    [⟨100, 100, 30, 30, .small, 1, 2, 0, 0⟩] 0
    ⟨100, 100, 30, 30, .small, 1, 2, 0, 0⟩ hfi rfl

/-! ### C7: the triangle sampler -/

/-- C7: for draws `r1, r2 ∈ [0,1)`, `getRandomPointInTriangle` returns
exactly the barycentric combination
`(1-√r1)·p1 + √r1·(1-r2)·p2 + √r1·r2·p3`, whose three weights are
nonnegative and sum to one — the point lies within or on the boundary of
the triangle (this holds for every triangle, degenerate or not). -/
theorem c7_triangle_point (p1 p2 p3 : Point) (r1 r2 : ℝ)
    (h10 : 0 ≤ r1) (h11 : r1 < 1) (h20 : 0 ≤ r2) (h21 : r2 < 1) :
    ∃ w1 w2 w3 : ℝ,
      w1 = 1 - Real.sqrt r1 ∧ w2 = Real.sqrt r1 * (1 - r2) ∧
      w3 = Real.sqrt r1 * r2 ∧
      0 ≤ w1 ∧ 0 ≤ w2 ∧ 0 ≤ w3 ∧ w1 + w2 + w3 = 1 ∧
      (getRandomPointInTriangle p1 p2 p3 r1 r2).x
        = w1 * p1.x + w2 * p2.x + w3 * p3.x ∧
      (getRandomPointInTriangle p1 p2 p3 r1 r2).y
        = w1 * p1.y + w2 * p2.y + w3 * p3.y := by
  have hs0 : 0 ≤ Real.sqrt r1 := Real.sqrt_nonneg r1
  have hs1 : Real.sqrt r1 ≤ 1 := Real.sqrt_le_one.mpr h11.le
  refine ⟨1 - Real.sqrt r1, Real.sqrt r1 * (1 - r2), Real.sqrt r1 * r2,
    rfl, rfl, rfl, by linarith, ?_, mul_nonneg hs0 h20, by ring, rfl, rfl⟩
  exact mul_nonneg hs0 (by linarith)

/-- Witness for C7 at `r1 = r2 = 0` on the triangle `(0,0), (1,0), (0,1)`. -/
theorem c7_witness :
    ∃ w1 w2 w3 : ℝ,
      w1 = 1 - Real.sqrt 0 ∧ w2 = Real.sqrt 0 * (1 - 0) ∧
      w3 = Real.sqrt 0 * 0 ∧
      0 ≤ w1 ∧ 0 ≤ w2 ∧ 0 ≤ w3 ∧ w1 + w2 + w3 = 1 ∧
      (getRandomPointInTriangle ⟨0, 0⟩ ⟨1, 0⟩ ⟨0, 1⟩ 0 0).x
        = w1 * (Point.mk 0 0).x + w2 * (Point.mk 1 0).x + w3 * (Point.mk 0 1).x ∧
      (getRandomPointInTriangle ⟨0, 0⟩ ⟨1, 0⟩ ⟨0, 1⟩ 0 0).y
        = w1 * (Point.mk 0 0).y + w2 * (Point.mk 1 0).y + w3 * (Point.mk 0 1).y :=
  c7_triangle_point ⟨0, 0⟩ ⟨1, 0⟩ ⟨0, 1⟩ 0 0 le_rfl (by norm_num) le_rfl
    (by norm_num)

/-! ### C9: the claimed division guards -/

/-- C9 (the code violates the claim): with the pointer exactly at a
particle's position the pointer-to-particle distance — the divisor of the
repulsion computation — is zero, yet the only guard the source applies
(`distance < MOUSE_RADIUS`) is satisfied, so the `dx / distance`,
`dy / distance` divisions are performed with a zero divisor (`0/0 = NaN` in
the source's arithmetic).  No positivity check on the divisor exists, and
`mouseMoveScaleX` divides by `rect.width` with no guard at all. -/
theorem c9_unguarded_division :
    ∀ px py : ℝ,
      repulsionDistance px py px py = 0 ∧
      repulsionApplies px py px py ∧
      mouseMoveScaleX 482 0 1 0 = 1 * ((482:ℝ) / 0) := by
  intro px py
  have hd : repulsionDistance px py px py = 0 := by
    unfold repulsionDistance
    simp
  refine ⟨hd, ?_, by unfold mouseMoveScaleX; norm_num⟩
  unfold repulsionApplies MOUSE_RADIUS
  rw [hd]
  norm_num

/-! ### Star-polygon machinery shared by C8 and C10

The ray-casting fold toggles a boolean once per edge whose condition holds,
so its value is the parity of the number of such edges.  `foldl_toggle`
reduces the fold to a `countP` parity; `countP_range_beq` and
`cyclic_flips_even` compute that parity in the two situations we need
(exactly one toggling edge; one toggling edge per sign change of a cyclic
boolean sequence, an even number). -/

lemma foldl_toggle (p : ℕ → Bool) (l : List ℕ) (b : Bool) :
    l.foldl (fun acc i => cond (p i) (!acc) acc) b
      = (b != decide ((l.countP p) % 2 = 1)) := by
  induction l generalizing b with
  | nil => simp
  | cons a t ih =>
      rw [List.foldl_cons, ih, List.countP_cons]
      rcases Nat.mod_two_eq_zero_or_one (t.countP p) with h | h <;>
        cases hpa : p a <;> cases b <;> simp [h, hpa, Nat.add_mod]

lemma countP_range_beq (m k : ℕ) :
    (List.range m).countP (fun i => i == k) = if k < m then 1 else 0 := by
  induction m with
  | zero => simp
  | succ m ih =>
      rw [List.range_succ, List.countP_append, ih]
      by_cases h : k < m
      · rw [if_pos h, if_pos (by omega)]
        have hm : (m == k) = false := by simp; omega
        simp [hm]
      · rcases Nat.eq_or_lt_of_le (Nat.not_lt.mp h) with rfl | h2
        · simp
        · rw [if_neg h, if_neg (by omega)]
          have hm : (m == k) = false := by simp; omega
          simp [hm]

lemma telescope_parity (S : ℕ → Bool) (k : ℕ) :
    ((List.range k).countP (fun j => S (j + 1) != S j)) % 2
      = (if S k != S 0 then 1 else 0) := by
  induction k with
  | zero => simp
  | succ k ih =>
      rw [List.range_succ, List.countP_append, Nat.add_mod, ih]
      cases h0 : S 0 <;> cases hk : S k <;> cases hk1 : S (k + 1) <;>
        simp [h0, hk, hk1]

lemma cyclic_flips_even (S : ℕ → Bool) (m : ℕ) :
    ((List.range m).countP
        (fun i => S i != S (if i = 0 then m - 1 else i - 1))) % 2 = 0 := by
  cases m with
  | zero => simp
  | succ mm =>
      rw [List.range_succ_eq_map, List.countP_cons, List.countP_map]
      have htail : (List.range mm).countP
          ((fun i => S i != S (if i = 0 then mm + 1 - 1 else i - 1)) ∘ Nat.succ)
            = (List.range mm).countP (fun j => S (j + 1) != S j) := by
        apply List.countP_congr
        intro j hj
        simp [Function.comp]
      rw [htail, Nat.add_mod, telescope_parity S mm]
      cases h0 : S 0 <;> cases hmm : S mm <;> simp [h0, hmm]

lemma starPoints_len (cx cy : ℝ) (n : ℕ) (oR iR : ℝ) :
    (starPoints cx cy n oR iR).length = n * 2 := by
  simp [starPoints]

lemma starPoints_getD (cx cy : ℝ) (n : ℕ) (oR iR : ℝ) (k : ℕ) (hk : k < n * 2) :
    (starPoints cx cy n oR iR).getD k ⟨0, 0⟩ = starVertex cx cy n oR iR k := by
  unfold starPoints
  rw [List.getD_eq_getElem?_getD, List.getElem?_map, List.getElem?_range hk]
  rfl

lemma cross_prod_eq (a b ra rb : ℝ) :
    (Real.cos a * ra) * (Real.sin b * rb) - (Real.cos b * rb) * (Real.sin a * ra)
      = -(ra * rb * Real.sin (a - b)) := by
  rw [Real.sin_sub]
  ring

lemma theta_diff_succ (n i : ℕ) (hi : 1 ≤ i) :
    (-(Real.pi / 2) + i * (Real.pi / n)) -
        (-(Real.pi / 2) + ((i - 1 : ℕ) : ℝ) * (Real.pi / n))
      = Real.pi / n := by
  have hc : ((i - 1 : ℕ) : ℝ) = (i : ℝ) - 1 := by
    push_cast [Nat.cast_sub hi]
    ring
  rw [hc]
  ring

lemma theta_diff_wrap (n : ℕ) (hn : 1 ≤ n) :
    Real.sin ((-(Real.pi / 2) + (0 : ℕ) * (Real.pi / n)) -
        (-(Real.pi / 2) + ((n * 2 - 1 : ℕ) : ℝ) * (Real.pi / n)))
      = Real.sin (Real.pi / n) := by
  have hn0 : (n:ℝ) ≠ 0 := by
    have : (0:ℝ) < n := by exact_mod_cast hn
    linarith
  have hc : ((n * 2 - 1 : ℕ) : ℝ) = (n : ℝ) * 2 - 1 := by
    push_cast [Nat.cast_sub (by omega : 1 ≤ n * 2)]
    ring
  have harg : (-(Real.pi / 2) + (0 : ℕ) * (Real.pi / n)) -
      (-(Real.pi / 2) + ((n * 2 - 1 : ℕ) : ℝ) * (Real.pi / n))
        = Real.pi / n - 2 * Real.pi := by
    rw [hc]
    field_simp
    ring
  rw [harg, Real.sin_sub_two_pi]

/-- Sign of the star-vertex ordinate relative to the centre: the vertex at
index `i` lies strictly above the centre exactly when `n < 2i < 3n`. -/
lemma sin_theta_sign (n i : ℕ) (hn : 1 ≤ n) (hi : i < 2 * n) :
    0 < Real.sin (-(Real.pi / 2) + i * (Real.pi / n)) ↔
      n < 2 * i ∧ 2 * i < 3 * n := by
  have hπ := Real.pi_pos
  have hn0 : (0:ℝ) < (n:ℝ) := by exact_mod_cast hn
  have hq : (0:ℝ) < Real.pi / n := div_pos hπ hn0
  have hnq : (n:ℝ) * (Real.pi / n) = Real.pi := by field_simp
  constructor
  · intro hs
    by_contra hc
    rw [not_and_or] at hc
    rcases hc with hc | hc
    · have h2i : 2 * i ≤ n := Nat.not_lt.mp (fun h => hc (by omega))
      have hcast : ((2 * i : ℕ):ℝ) ≤ (n:ℝ) := by exact_mod_cast h2i
      push_cast at hcast
      have h1 : (i:ℝ) * (Real.pi / n) ≤ Real.pi / 2 := by nlinarith
      have hθle : -(Real.pi / 2) + i * (Real.pi / n) ≤ 0 := by linarith
      have hipos : (0:ℝ) ≤ (i:ℝ) * (Real.pi / n) := by positivity
      have hθge : -Real.pi ≤ -(Real.pi / 2) + i * (Real.pi / n) := by linarith
      have := Real.sin_nonpos_of_nonnpos_of_neg_pi_le hθle hθge
      linarith
    · have h3n : 3 * n ≤ 2 * i := by omega
      have hcast : ((3 * n : ℕ):ℝ) ≤ ((2 * i : ℕ):ℝ) := by exact_mod_cast h3n
      push_cast at hcast
      have hcast2 : ((i:ℕ):ℝ) < ((2 * n : ℕ):ℝ) := by exact_mod_cast hi
      push_cast at hcast2
      have hπle : Real.pi ≤ -(Real.pi / 2) + i * (Real.pi / n) := by nlinarith
      have hlt : -(Real.pi / 2) + i * (Real.pi / n) - Real.pi ≤ Real.pi := by
        nlinarith
      have h4 := Real.sin_sub_pi (-(Real.pi / 2) + i * (Real.pi / n))
      have h5 : 0 ≤ Real.sin (-(Real.pi / 2) + i * (Real.pi / n) - Real.pi) :=
        Real.sin_nonneg_of_nonneg_of_le_pi (by linarith) hlt
      rw [h4] at h5
      linarith
  · rintro ⟨h1, h2⟩
    apply Real.sin_pos_of_pos_of_lt_pi
    · have hcast : ((n:ℕ):ℝ) < ((2 * i : ℕ):ℝ) := by exact_mod_cast h1
      push_cast at hcast
      nlinarith
    · have hcast : ((2 * i : ℕ):ℝ) < ((3 * n : ℕ):ℝ) := by exact_mod_cast h2
      push_cast at hcast
      nlinarith

/-- The ray-casting edge condition, evaluated at the star's own centre:
edge `i` (paired with the previous vertex) toggles the parity exactly for
the single index `i = n/2 + 1`.  The crossing-abscissa comparison reduces to
the sign of the vertex cross product, which is
`-(r_i * r_j * sin(π/n)) < 0` for every edge. -/
lemma center_edge_cond (cx cy outer inner : ℝ) (n : ℕ) (hn : 2 ≤ n)
    (hinn : 0 < inner) (hio : inner < outer) (i : ℕ) (hi : i < n * 2) :
    ((((starVertex cx cy n outer inner i).y > cy) ≠
        ((starVertex cx cy n outer inner (if i = 0 then n * 2 - 1 else i - 1)).y > cy)) ∧
      cx < ((starVertex cx cy n outer inner (if i = 0 then n * 2 - 1 else i - 1)).x
              - (starVertex cx cy n outer inner i).x)
            * (cy - (starVertex cx cy n outer inner i).y)
            / ((starVertex cx cy n outer inner (if i = 0 then n * 2 - 1 else i - 1)).y
              - (starVertex cx cy n outer inner i).y)
            + (starVertex cx cy n outer inner i).x)
      ↔ i = n / 2 + 1 := by
  have hout : 0 < outer := lt_trans hinn hio
  have hπ := Real.pi_pos
  have hn0 : (0:ℝ) < (n:ℝ) := by exact_mod_cast (by omega : 0 < n)
  have hsinq : 0 < Real.sin (Real.pi / n) := by
    apply Real.sin_pos_of_pos_of_lt_pi
    · positivity
    · have h2 : (2:ℝ) ≤ (n:ℝ) := by exact_mod_cast hn
      rw [div_lt_iff₀ hn0]
      nlinarith
  set j := (if i = 0 then n * 2 - 1 else i - 1) with hjdef
  have hjlt : j < n * 2 := by rw [hjdef]; split <;> omega
  simp only [starVertex]
  set ri := (if i % 2 = 0 then outer else inner) with hridef
  set rj := (if j % 2 = 0 then outer else inner) with hrjdef
  set si := Real.sin (-(Real.pi / 2) + (i:ℝ) * (Real.pi / (n:ℝ))) with hsidef
  set sj := Real.sin (-(Real.pi / 2) + (j:ℝ) * (Real.pi / (n:ℝ))) with hsjdef
  set ci := Real.cos (-(Real.pi / 2) + (i:ℝ) * (Real.pi / (n:ℝ))) with hcidef
  set cj := Real.cos (-(Real.pi / 2) + (j:ℝ) * (Real.pi / (n:ℝ))) with hcjdef
  have hri : 0 < ri := by
    rw [hridef]; split
    · exact hout
    · exact hinn
  have hrj : 0 < rj := by
    rw [hrjdef]; split
    · exact hout
    · exact hinn
  have hSi : (cy < cy + si * ri) ↔ 0 < si := by
    rw [lt_add_iff_pos_right]
    constructor
    · intro h; nlinarith
    · intro h; exact mul_pos h hri
  have hSj : (cy < cy + sj * rj) ↔ 0 < sj := by
    rw [lt_add_iff_pos_right]
    constructor
    · intro h; nlinarith
    · intro h; exact mul_pos h hrj
  have hN : ci * ri * (sj * rj) - cj * rj * (si * ri) < 0 := by
    rw [hcidef, hsjdef, hcjdef, hsidef, cross_prod_eq]
    have hdiff : Real.sin ((-(Real.pi / 2) + (i:ℝ) * (Real.pi / (n:ℝ))) -
        (-(Real.pi / 2) + (j:ℝ) * (Real.pi / (n:ℝ)))) = Real.sin (Real.pi / n) := by
      rcases Nat.eq_zero_or_pos i with rfl | hipos
      · rw [hjdef]
        simpa using theta_diff_wrap n (by omega)
      · have hj : j = i - 1 := by rw [hjdef, if_neg (by omega)]
        rw [hj, theta_diff_succ n i hipos]
    rw [hdiff]
    have := mul_pos (mul_pos hri hrj) hsinq
    linarith
  have hchar_i : (0 < si) ↔ (n < 2 * i ∧ 2 * i < 3 * n) := by
    rw [hsidef]; exact sin_theta_sign n i (by omega) (by omega)
  have hchar_j : (0 < sj) ↔ (n < 2 * j ∧ 2 * j < 3 * n) := by
    rw [hsjdef]; exact sin_theta_sign n j (by omega) (by omega)
  constructor
  · rintro ⟨hne, hx⟩
    by_cases hsi : 0 < si
    · by_cases hsj : 0 < sj
      · exact absurd (propext (iff_of_true (hSi.mpr hsi) (hSj.mpr hsj))) hne
      · rw [hchar_i] at hsi
        have hsj' : ¬ (n < 2 * j ∧ 2 * j < 3 * n) := fun h => hsj (hchar_j.mpr h)
        rcases Nat.eq_zero_or_pos i with rfl | hipos
        · omega
        · have hj : j = i - 1 := by rw [hjdef, if_neg (by omega)]
          omega
    · by_cases hsj : 0 < sj
      · exfalso
        have hsi' : si ≤ 0 := le_of_not_lt hsi
        have hA : 0 < sj * rj - si * ri := by nlinarith [mul_pos hsj hrj]
        have hy : (cy + sj * rj) - (cy + si * ri) = sj * rj - si * ri := by ring
        have hAne : sj * rj - si * ri ≠ 0 := ne_of_gt hA
        have hEq : ((cx + cj * rj) - (cx + ci * ri)) * (cy - (cy + si * ri)) /
              ((cy + sj * rj) - (cy + si * ri)) + (cx + ci * ri) - cx
            = (ci * ri * (sj * rj) - cj * rj * (si * ri)) / (sj * rj - si * ri) := by
          rw [hy]
          field_simp [hAne]
          ring
        have hneg : (ci * ri * (sj * rj) - cj * rj * (si * ri)) /
            (sj * rj - si * ri) < 0 := div_neg_of_neg_of_pos hN hA
        have hlt : ((cx + cj * rj) - (cx + ci * ri)) * (cy - (cy + si * ri)) /
              ((cy + sj * rj) - (cy + si * ri)) + (cx + ci * ri) - cx < 0 := by
          rw [hEq]; exact hneg
        linarith [hx, hlt]
      · exact absurd (propext (iff_of_false (fun h => hsi (hSi.mp h))
          (fun h => hsj (hSj.mp h)))) hne
  · intro hieq
    have hipos : 1 ≤ i := by omega
    have hj : j = i - 1 := by rw [hjdef, if_neg (by omega)]
    have hsi : 0 < si := hchar_i.mpr (by omega)
    have hsj : ¬ 0 < sj := fun h => by
      have := hchar_j.mp h
      omega
    have hsj' : sj ≤ 0 := le_of_not_lt hsj
    constructor
    · intro h
      exact hsj (hSj.mp (cast h (hSi.mpr hsi)))
    · have hA : sj * rj - si * ri < 0 := by nlinarith [mul_pos hsi hri]
      have hy : (cy + sj * rj) - (cy + si * ri) = sj * rj - si * ri := by ring
      have hAne : sj * rj - si * ri ≠ 0 := ne_of_lt hA
      have hEq : ((cx + cj * rj) - (cx + ci * ri)) * (cy - (cy + si * ri)) /
            ((cy + sj * rj) - (cy + si * ri)) + (cx + ci * ri) - cx
          = (ci * ri * (sj * rj) - cj * rj * (si * ri)) / (sj * rj - si * ri) := by
        rw [hy]
        field_simp [hAne]
        ring
      have hpos : 0 < (ci * ri * (sj * rj) - cj * rj * (si * ri)) /
          (sj * rj - si * ri) := div_pos_of_neg_of_neg hN hA
      have hgt : 0 < ((cx + cj * rj) - (cx + ci * ri)) * (cy - (cy + si * ri)) /
            ((cy + sj * rj) - (cy + si * ri)) + (cx + ci * ri) - cx := by
        rw [hEq]; exact hpos
      linarith [hgt]

/-! ### C8: the star centre -/

/-- C8 counterexample: at `spikes = 1` (which the claim admits) the star
"polygon" has just two vertices, both on the vertical axis through the
centre, and the ray cast classifies the centre itself as outside:
`isPointInStar` at the centre `(0,0)` of a 1-spike star with
`outerRadius = 2 > innerRadius = 1 > 0` returns `false`. -/
theorem c8_counterexample : isPointInStar 0 0 0 0 1 2 1 = false := by
  have h0 : starVertex 0 0 1 2 1 0 = ⟨0, -2⟩ := by
    unfold starVertex
    norm_num
  have h1 : starVertex 0 0 1 2 1 1 = ⟨0, 1⟩ := by
    unfold starVertex
    have harg : -(Real.pi / 2) + ((1:ℕ):ℝ) * (Real.pi / ((1:ℕ):ℝ)) = Real.pi / 2 := by
      push_cast
      ring
    rw [harg]
    norm_num [Real.cos_pi_div_two, Real.sin_pi_div_two]
  have hsp : starPoints 0 0 1 2 1 = [⟨0, -2⟩, ⟨0, 1⟩] := by
    unfold starPoints
    rw [show List.range (1 * 2) = [0, 1] from rfl, List.map_cons, List.map_cons,
      List.map_nil, h0, h1]
  unfold isPointInStar rayCastInside
  rw [hsp]
  rw [show List.range (([⟨0, -2⟩, ⟨0, 1⟩] : List Point).length) = [0, 1] from rfl,
    List.foldl_cons, List.foldl_cons, List.foldl_nil]
  norm_num [List.getD]

/-- C8 as amended: for every centre, spike count `≥ 2`, and radii with
`outerRadius > innerRadius > 0`, `isPointInStar` applied to the centre point
itself returns `true`.  (The claim's `spikes ≥ 1` fails only at the
degenerate `spikes = 1`, see `c8_counterexample`.) -/
theorem c8_center_in_star (cx cy outer inner : ℝ) (n : ℕ) (hn : 2 ≤ n)
    (hinn : 0 < inner) (hio : inner < outer) :
    isPointInStar cx cy cx cy n outer inner = true := by
  unfold isPointInStar rayCastInside
  rw [starPoints_len]
  refine Eq.trans (List.foldl_ext _
    (fun acc i => cond (i == n / 2 + 1) (!acc) acc) false ?_) ?_
  · intro acc i hi
    rw [List.mem_range] at hi
    dsimp only
    have hjlt : (if i = 0 then n * 2 - 1 else i - 1) < n * 2 := by
      split <;> omega
    rw [starPoints_getD cx cy n outer inner i hi,
      starPoints_getD cx cy n outer inner _ hjlt, Bool.cond_eq_if]
    refine if_congr ?_ rfl rfl
    exact (center_edge_cond cx cy outer inner n hn hinn hio i hi).trans
      (beq_iff_eq (a := i) (b := n / 2 + 1)).symm
  · rw [foldl_toggle]
    have hcount : (List.range (n * 2)).countP (fun i => i == n / 2 + 1) = 1 := by
      rw [countP_range_beq, if_pos (by omega)]
    rw [hcount]
    simp

/-- Witness for C8 (amended) at the 2-spike star of radii 2 and 1 centred
at the origin. -/
theorem c8_witness : isPointInStar 0 0 0 0 2 2 1 = true :=
  c8_center_in_star 0 0 2 1 2 le_rfl (by norm_num) (by norm_num)

/-! ### C10: points beyond the outer radius -/

lemma starVertex_in_ball (cx cy : ℝ) (n : ℕ) (oR iR : ℝ)
    (hinn : 0 < iR) (hio : iR ≤ oR) (k : ℕ) :
    ((starVertex cx cy n oR iR k).x - cx) ^ 2 +
      ((starVertex cx cy n oR iR k).y - cy) ^ 2 ≤ oR ^ 2 := by
  unfold starVertex
  dsimp only
  have hpyth := Real.sin_sq_add_cos_sq (-(Real.pi / 2) + (k:ℝ) * (Real.pi / (n:ℝ)))
  have hr : 0 < (if k % 2 = 0 then oR else iR) ∧
      (if k % 2 = 0 then oR else iR) ≤ oR := by
    split
    · exact ⟨lt_of_lt_of_le hinn hio, le_rfl⟩
    · exact ⟨hinn, hio⟩
  calc ((cx + Real.cos (-(Real.pi / 2) + (k:ℝ) * (Real.pi / (n:ℝ))) *
          (if k % 2 = 0 then oR else iR)) - cx) ^ 2 +
        ((cy + Real.sin (-(Real.pi / 2) + (k:ℝ) * (Real.pi / (n:ℝ))) *
          (if k % 2 = 0 then oR else iR)) - cy) ^ 2
      = (if k % 2 = 0 then oR else iR) ^ 2 := by
        linear_combination ((if k % 2 = 0 then oR else iR) : ℝ) ^ 2 * hpyth
    _ ≤ oR ^ 2 := by nlinarith [hr.1, hr.2]

lemma seg_in_ball (x1 y1 x2 y2 c d R t : ℝ)
    (h1 : (x1 - c) ^ 2 + (y1 - d) ^ 2 ≤ R ^ 2)
    (h2 : (x2 - c) ^ 2 + (y2 - d) ^ 2 ≤ R ^ 2)
    (ht0 : 0 ≤ t) (ht1 : t ≤ 1) :
    ((x1 + t * (x2 - x1)) - c) ^ 2 + ((y1 + t * (y2 - y1)) - d) ^ 2 ≤ R ^ 2 := by
  nlinarith [mul_nonneg (mul_nonneg ht0 (sub_nonneg.2 ht1))
      (add_nonneg (sq_nonneg (x1 - x2)) (sq_nonneg (y1 - y2))),
    mul_le_mul_of_nonneg_left h1 (sub_nonneg.2 ht1),
    mul_le_mul_of_nonneg_left h2 ht0]

/-- C10: for every query point strictly farther than `outerRadius` from the
star centre, any spike count `≥ 1`, and radii `0 < innerRadius ≤
outerRadius`, `isPointInStar` returns `false`: all vertices lie within
`outerRadius` of the centre, so every straddling edge crosses the horizontal
through the query point inside that circle — to the right of it the
crossings counted are none, to the left all of them, an even number. -/
theorem c10_outside_star (px py cx cy outer inner : ℝ) (n : ℕ) (hn : 1 ≤ n)
    (hinn : 0 < inner) (hio : inner ≤ outer)
    (hfar : outer < Real.sqrt ((px - cx) ^ 2 + (py - cy) ^ 2)) :
    isPointInStar px py cx cy n outer inner = false := by
  have hout : 0 < outer := lt_of_lt_of_le hinn hio
  have hdist2 : outer ^ 2 < (px - cx) ^ 2 + (py - cy) ^ 2 :=
    (Real.lt_sqrt hout.le).mp hfar
  have hball := starVertex_in_ball cx cy n outer inner hinn hio
  unfold isPointInStar rayCastInside
  rw [starPoints_len]
  by_cases hycase : (py - cy) ^ 2 ≤ outer ^ 2
  case neg =>
    have hy2 : outer ^ 2 < (py - cy) ^ 2 := not_le.mp hycase
    have hallsame : ∀ k,
        ((starVertex cx cy n outer inner k).y > py) ↔ (py < cy) := by
      intro k
      have hb := hball k
      have hbx := sq_nonneg ((starVertex cx cy n outer inner k).x - cx)
      by_cases hside : cy < py
      · have h1 : outer < py - cy := by nlinarith
        constructor
        · intro hgt
          nlinarith
        · intro hlt
          linarith
      · have h1 : py - cy < -outer := by nlinarith [not_lt.mp hside]
        constructor
        · intro _
          linarith
        · intro _
          nlinarith
    refine Eq.trans (List.foldl_ext _ (fun acc i => acc) false ?_) (by simp)
    intro acc i hi
    rw [List.mem_range] at hi
    dsimp only
    have hjlt : (if i = 0 then n * 2 - 1 else i - 1) < n * 2 := by
      split <;> omega
    rw [starPoints_getD cx cy n outer inner i hi,
      starPoints_getD cx cy n outer inner _ hjlt]
    rw [if_neg]
    rintro ⟨hne, -⟩
    exact hne (propext ((hallsame i).trans (hallsame _).symm))
  case pos =>
    have hpx2 : outer ^ 2 - (py - cy) ^ 2 < (px - cx) ^ 2 := by linarith
    have hpxne : px ≠ cx := by
      intro h
      rw [h] at hpx2
      simp at hpx2
      linarith
    have hcross : ∀ i : ℕ, ∀ j : ℕ,
        (((starVertex cx cy n outer inner i).y > py) ≠
          ((starVertex cx cy n outer inner j).y > py)) →
        (((starVertex cx cy n outer inner j).x -
              (starVertex cx cy n outer inner i).x) *
            (py - (starVertex cx cy n outer inner i).y) /
            ((starVertex cx cy n outer inner j).y -
              (starVertex cx cy n outer inner i).y) +
            (starVertex cx cy n outer inner i).x - cx) ^ 2
          ≤ outer ^ 2 - (py - cy) ^ 2 := by
      intro i j hne
      set xi := (starVertex cx cy n outer inner i).x with hxi
      set yi := (starVertex cx cy n outer inner i).y with hyi
      set xj := (starVertex cx cy n outer inner j).x with hxj
      set yj := (starVertex cx cy n outer inner j).y with hyj
      have hmain : ∀ t : ℝ, 0 ≤ t → t ≤ 1 → yi + t * (yj - yi) = py →
          ((xi + t * (xj - xi)) - cx) ^ 2 ≤ outer ^ 2 - (py - cy) ^ 2 := by
        intro t ht0 ht1 hty
        have hin := seg_in_ball xi yi xj yj cx cy outer t (hball i) (hball j)
          ht0 ht1
        rw [hty] at hin
        linarith
      by_cases hyi' : py < yi
      · have hyj' : ¬ py < yj := fun h => hne (propext (iff_of_true hyi' h))
        have hd : yj - yi < 0 := by linarith [not_lt.mp hyj']
        have hdne : yj - yi ≠ 0 := ne_of_lt hd
        set t := (py - yi) / (yj - yi) with htdef
        have ht0 : 0 ≤ t := by
          rw [htdef, div_nonneg_iff]
          right
          constructor <;> linarith [not_lt.mp hyj']
        have ht1 : t ≤ 1 := by
          rw [htdef, div_le_one_iff]
          right
          right
          exact ⟨hd, by linarith [not_lt.mp hyj']⟩
        have hty : yi + t * (yj - yi) = py := by
          rw [htdef, div_mul_cancel₀ _ hdne]
          ring
        have hE : (xj - xi) * (py - yi) / (yj - yi) + xi - cx
            = (xi + t * (xj - xi)) - cx := by
          rw [htdef]
          ring
        rw [hE]
        exact hmain t ht0 ht1 hty
      · have hyj' : py < yj := by
          by_contra h
          exact hne (propext (iff_of_false hyi' h))
        have hd : 0 < yj - yi := by linarith [not_lt.mp hyi']
        have hdne : yj - yi ≠ 0 := ne_of_gt hd
        set t := (py - yi) / (yj - yi) with htdef
        have ht0 : 0 ≤ t := by
          rw [htdef]
          exact div_nonneg (by linarith [not_lt.mp hyi']) hd.le
        have ht1 : t ≤ 1 := by
          rw [htdef, div_le_one hd]
          linarith
        have hty : yi + t * (yj - yi) = py := by
          rw [htdef, div_mul_cancel₀ _ hdne]
          ring
        have hE : (xj - xi) * (py - yi) / (yj - yi) + xi - cx
            = (xi + t * (xj - xi)) - cx := by
          rw [htdef]
          ring
        rw [hE]
        exact hmain t ht0 ht1 hty
    rcases lt_or_gt_of_ne hpxne with hleft | hright
    · refine Eq.trans (List.foldl_ext _
        (fun acc i => cond ((decide ((starVertex cx cy n outer inner i).y > py)) !=
          (decide ((starVertex cx cy n outer inner
            (if i = 0 then n * 2 - 1 else i - 1)).y > py))) (!acc) acc) false ?_) ?_
      · intro acc i hi
        rw [List.mem_range] at hi
        dsimp only
        have hjlt : (if i = 0 then n * 2 - 1 else i - 1) < n * 2 := by
          split <;> omega
        rw [starPoints_getD cx cy n outer inner i hi,
          starPoints_getD cx cy n outer inner _ hjlt]
        by_cases hne : ((starVertex cx cy n outer inner i).y > py) ≠
            ((starVertex cx cy n outer inner
              (if i = 0 then n * 2 - 1 else i - 1)).y > py)
        · have hc := hcross i _ hne
          have habs : (((starVertex cx cy n outer inner
                  (if i = 0 then n * 2 - 1 else i - 1)).x -
                (starVertex cx cy n outer inner i).x) *
                (py - (starVertex cx cy n outer inner i).y) /
                ((starVertex cx cy n outer inner
                  (if i = 0 then n * 2 - 1 else i - 1)).y -
                  (starVertex cx cy n outer inner i).y) +
                (starVertex cx cy n outer inner i).x - cx) ^ 2
              < (px - cx) ^ 2 := lt_of_le_of_lt hc hpx2
          have h1 : |((starVertex cx cy n outer inner
                  (if i = 0 then n * 2 - 1 else i - 1)).x -
                (starVertex cx cy n outer inner i).x) *
                (py - (starVertex cx cy n outer inner i).y) /
                ((starVertex cx cy n outer inner
                  (if i = 0 then n * 2 - 1 else i - 1)).y -
                  (starVertex cx cy n outer inner i).y) +
                (starVertex cx cy n outer inner i).x - cx| < |px - cx| := by
            rw [← Real.sqrt_sq_eq_abs, ← Real.sqrt_sq_eq_abs]
            exact Real.sqrt_lt_sqrt (sq_nonneg _) habs
          have h2 : |px - cx| = cx - px := by
            rw [abs_of_neg (by linarith : px - cx < 0)]
            ring
          rw [h2] at h1
          have h3 := (abs_lt.mp h1).1
          have hxlt : px < ((starVertex cx cy n outer inner
                (if i = 0 then n * 2 - 1 else i - 1)).x -
                (starVertex cx cy n outer inner i).x) *
              (py - (starVertex cx cy n outer inner i).y) /
              ((starVertex cx cy n outer inner
                (if i = 0 then n * 2 - 1 else i - 1)).y -
                (starVertex cx cy n outer inner i).y) +
              (starVertex cx cy n outer inner i).x := by
            linarith
          rw [if_pos ⟨hne, hxlt⟩, Bool.cond_eq_if, if_pos]
          rw [bne_iff_ne]
          intro h
          exact hne (propext (decide_eq_decide.mp h))
        · rw [if_neg (fun hcond => hne hcond.1), Bool.cond_eq_if, if_neg]
          rw [bne_iff_ne, not_not]
          rw [not_ne_iff] at hne
          exact decide_eq_decide.mpr (iff_of_eq hne)
      · rw [foldl_toggle]
        rw [show ((List.range (n * 2)).countP fun i =>
            (decide ((starVertex cx cy n outer inner i).y > py)) !=
              (decide ((starVertex cx cy n outer inner
                (if i = 0 then n * 2 - 1 else i - 1)).y > py))) % 2 = 0 from
          cyclic_flips_even
            (fun k => decide ((starVertex cx cy n outer inner k).y > py)) (n * 2)]
        simp
    · refine Eq.trans (List.foldl_ext _ (fun acc i => acc) false ?_) (by simp)
      intro acc i hi
      rw [List.mem_range] at hi
      dsimp only
      have hjlt : (if i = 0 then n * 2 - 1 else i - 1) < n * 2 := by
        split <;> omega
      rw [starPoints_getD cx cy n outer inner i hi,
        starPoints_getD cx cy n outer inner _ hjlt]
      rw [if_neg]
      rintro ⟨hne, hx⟩
      have hc := hcross i _ hne
      have habs : (((starVertex cx cy n outer inner
              (if i = 0 then n * 2 - 1 else i - 1)).x -
            (starVertex cx cy n outer inner i).x) *
            (py - (starVertex cx cy n outer inner i).y) /
            ((starVertex cx cy n outer inner
              (if i = 0 then n * 2 - 1 else i - 1)).y -
              (starVertex cx cy n outer inner i).y) +
            (starVertex cx cy n outer inner i).x - cx) ^ 2
          < (px - cx) ^ 2 := lt_of_le_of_lt hc hpx2
      have h1 : |((starVertex cx cy n outer inner
              (if i = 0 then n * 2 - 1 else i - 1)).x -
            (starVertex cx cy n outer inner i).x) *
            (py - (starVertex cx cy n outer inner i).y) /
            ((starVertex cx cy n outer inner
              (if i = 0 then n * 2 - 1 else i - 1)).y -
              (starVertex cx cy n outer inner i).y) +
            (starVertex cx cy n outer inner i).x - cx| < |px - cx| := by
        rw [← Real.sqrt_sq_eq_abs, ← Real.sqrt_sq_eq_abs]
        exact Real.sqrt_lt_sqrt (sq_nonneg _) habs
      have h2 : |px - cx| = px - cx := abs_of_pos (by linarith : (0:ℝ) < px - cx)
      rw [h2] at h1
      have h3 := le_abs_self (((starVertex cx cy n outer inner
              (if i = 0 then n * 2 - 1 else i - 1)).x -
            (starVertex cx cy n outer inner i).x) *
            (py - (starVertex cx cy n outer inner i).y) /
            ((starVertex cx cy n outer inner
              (if i = 0 then n * 2 - 1 else i - 1)).y -
              (starVertex cx cy n outer inner i).y) +
            (starVertex cx cy n outer inner i).x - cx)
      linarith

/-- Witness for C10: the point `(5, 0)` at distance 5 from the origin is
outside the 1-spike star of outer radius 2. -/
theorem c10_witness : isPointInStar 5 0 0 0 1 2 1 = false := by
  refine c10_outside_star 5 0 0 0 2 1 1 le_rfl (by norm_num) (by norm_num) ?_
  have h25 : ((5:ℝ) - 0) ^ 2 + ((0:ℝ) - 0) ^ 2 = 5 ^ 2 := by norm_num
  rw [h25, Real.sqrt_sq (by norm_num : (0:ℝ) ≤ 5)]
  norm_num

end Game
